import Mathlib

/-!
Verification of the DreamTrue evidence-weighted retrieval and synthesis pipeline.

This file gives a shallow embedding of the core retrieval / context-assembly /
response-parsing / staged-pipeline code of the repository
(`attached_assets/vector_store_1760607549716.py`,
`attached_assets/rag_pipeline_1760607549723.py`,
`attached_assets/agentic_system_1760607549717.py`) and proves or refutes the
frozen specification claims about it.

Modelling conventions:
* Python strings are `List Char` (named `Str`); `str.split`, `str.strip`,
  `str.upper`, substring tests, `str.find` and `str.replace` are embedded as
  executable functions on `List Char` mirroring Python semantics.
* Python floats are modelled as exact rationals `ℚ` (all the arithmetic the
  claims are about is sums/products of small decimal constants).
* The ChromaDB index and the LLM are external capabilities: their responses
  (raw query hits, generated text) are inputs of the embedded functions.
* Python `list.sort(key=..., reverse=True)` is a stable descending sort; it is
  embedded as Mathlib's stable `List.insertionSort` with the relation
  "left element has final score ≥ right element", which computes the same
  output as any stable sort with that comparison.
-/

namespace DreamTrue

/-- Python strings, embedded as lists of characters. -/
abbrev Str := List Char

/-- The whitespace characters stripped by Python's `str.strip()` (ASCII part). -/
def pyIsSpace (c : Char) : Bool :=
  c == ' ' || c == '\t' || c == '\n' || c == '\r' || c == '\x0b' || c == '\x0c'

/-- `s.lstrip()`: drop leading whitespace. -/
def lstrip (s : Str) : Str := s.dropWhile pyIsSpace

/-- `s.rstrip()`: drop trailing whitespace. -/
def rstrip (s : Str) : Str := (s.reverse.dropWhile pyIsSpace).reverse

/-- Python `s.strip()`: drop whitespace from both ends. -/
def strip (s : Str) : Str := rstrip (lstrip s)

/-- Python `s.upper()` (ASCII; the strings compared in the source are ASCII). -/
def upperStr (s : Str) : Str := s.map Char.toUpper

/-- Does `s` start with `pat`? (Helper for Python's `in` and `startswith`.) -/
def startsWithStr : Str → Str → Bool
  | [], _ => true
  | _ :: _, [] => false
  | p :: ps, c :: cs => p == c && startsWithStr ps cs

/-- Python's substring test `pat in s`. -/
def containsStr (pat : Str) : Str → Bool
  | [] => startsWithStr pat []
  | c :: cs => startsWithStr pat (c :: cs) || containsStr pat cs

/-- Python `s.split(sep)` for a single-character separator: `"".split(sep)`
yields `[""]`, i.e. the result is always nonempty. -/
def splitOnChar (sep : Char) : Str → List Str
  | [] => [[]]
  | c :: cs =>
    if c = sep then [] :: splitOnChar sep cs
    else
      match splitOnChar sep cs with
      | [] => [[c]]
      | s :: rest => (c :: s) :: rest

/-- Python `"\n".join(parts)`. -/
def joinNL : List Str → Str
  | [] => []
  | [s] => s
  | s :: t :: rest => s ++ '\n' :: joinNL (t :: rest)

/-- Python `" ".join(parts)`. -/
def joinSpace : List Str → Str
  | [] => []
  | [s] => s
  | s :: t :: rest => s ++ ' ' :: joinSpace (t :: rest)

/-- Total length of a list of strings. -/
def sumLens (l : List Str) : ℕ := (l.map List.length).sum

/-- Leftmost index at which `pat` occurs in the string (Python `s.find(pat)`,
with `none` playing the role of `-1`). -/
def findIdx (pat : Str) : Str → Option ℕ
  | [] => if startsWithStr pat [] then some 0 else none
  | c :: cs =>
    if startsWithStr pat (c :: cs) then some 0
    else (findIdx pat cs).map (· + 1)

/-- Python `s.replace(pat, "")` for nonempty `pat`: remove all leftmost
non-overlapping occurrences of `pat`. -/
def removeAll (pat : Str) : Str → Str
  | [] => []
  | c :: cs =>
    if h : pat ≠ [] ∧ startsWithStr pat (c :: cs) = true then
      removeAll pat ((c :: cs).drop pat.length)
    else c :: removeAll pat cs
  termination_by s => s.length
  decreasing_by
  · have hp : 0 < pat.length := List.length_pos.mpr h.1
    simp only [List.length_drop, List.length_cons]
    omega
  · simp

/-- The scan behind `re.search(r'(\d+)%', s)`: accumulator holds the value of
the digit run ending just before the current position; at a `'%'` directly
after a digit run the run's value is the leftmost match of the pattern. -/
def firstPercentAux : Option ℕ → Str → Option ℕ
  | _, [] => none
  | run, c :: cs =>
    if c.isDigit then firstPercentAux (some (10 * run.getD 0 + (c.toNat - 48))) cs
    else if c = '%' then
      match run with
      | some n => some n
      | none => firstPercentAux none cs
    else firstPercentAux none cs

/-- Value of the leftmost `(\d+)%` match in `s`, if any. -/
def firstPercent (s : Str) : Option ℕ := firstPercentAux none s

/-! ### Vector store (`vector_store_1760607549716.py`) -/

/-- The metadata dictionary attached to an indexed chunk, restricted to the
keys the retrieval code reads (`source`, `category`, `validation`, `weight`);
a `none` field models an absent key, read through `.get(key, default)`. -/
structure Metadata where
  source : Option Str
  category : Option Str
  validation : Option Str
  weight : Option ℚ
deriving DecidableEq

/-- One raw nearest-neighbour row returned by the ChromaDB index for a query
(`results['ids'/'documents'/'metadatas'/'distances']`), the external input of
`similarity_search`. -/
structure RawHit where
  id : Str
  content : Str
  metadata : Metadata
  distance : ℚ
deriving DecidableEq

/-- A formatted search result as built by `similarity_search`. -/
structure SearchResult where
  id : Str
  content : Str
  metadata : Metadata
  distance : ℚ
  relevance_score : ℚ
deriving DecidableEq

/-- The per-row formatting step of `similarity_search`:
`relevance_score = 1 - distance` (no clamping in the source). -/
def formatResult (h : RawHit) : SearchResult :=
  { id := h.id
    content := h.content
    metadata := h.metadata
    distance := h.distance
    relevance_score := 1 - h.distance }

/-- `similarity_search`, as a function of the rows the index returned: format
each row, converting distance to similarity. -/
def similarity_search (hits : List RawHit) : List SearchResult :=
  hits.map formatResult

/-- A search result extended with the credibility-boosted `final_score`
(the dict after `result['final_score'] = ...` in `hybrid_search`). -/
structure RankedResult where
  base : SearchResult
  final_score : ℚ
deriving DecidableEq

/-- `result['metadata'].get('weight', 0.1)`. -/
def weightOf (r : SearchResult) : ℚ := r.metadata.weight.getD 0.1

/-- The re-ranking step of `hybrid_search`:
`final_score = relevance_score * (1 + weight)`. -/
def addFinalScore (r : SearchResult) : RankedResult :=
  { base := r, final_score := r.relevance_score * (1 + weightOf r) }

/-- The comparison of `results.sort(key=lambda x: x['final_score'],
reverse=True)`: `a` may stay before `b` iff `b`'s final score is ≤ `a`'s.
A stable sort with this relation is exactly Python's stable descending sort. -/
def finalLe (a b : RankedResult) : Prop := b.final_score ≤ a.final_score

instance : DecidableRel finalLe :=
  fun a b => inferInstanceAs (Decidable (b.final_score ≤ a.final_score))

instance : IsTotal RankedResult finalLe :=
  ⟨fun a b => le_total b.final_score a.final_score⟩

instance : IsTrans RankedResult finalLe :=
  ⟨fun _ _ _ h1 h2 => le_trans h2 h1⟩

/-- The full re-ranked list of `hybrid_search` before truncation: score each
similarity-search result and stably sort by final score descending. -/
def hybrid_ranked (hits : List RawHit) : List RankedResult :=
  List.insertionSort finalLe ((similarity_search hits).map addFinalScore)

/-- `hybrid_search(query, n_results)`, as a function of the raw rows the index
returned for the over-fetched semantic search: re-rank by
`relevance_score * (1 + weight)`, sort descending, return the top
`n_results`. -/
def hybrid_search (n_results : ℕ) (hits : List RawHit) : List RankedResult :=
  (hybrid_ranked hits).take n_results

/-- The labeled context block `chunk_text` built for result number `idx`
inside `get_context_for_query` (a verbatim embedding of the f-string). -/
def formatBlock (idx : ℕ) (r : RankedResult) : Str :=
  '\n' :: ("[Source ".data ++ (Nat.repr (idx + 1)).data ++ ": ".data
    ++ r.base.metadata.source.getD "Unknown".data
    ++ " | Category: ".data ++ r.base.metadata.category.getD "general".data
    ++ " | Validation: ".data ++ r.base.metadata.validation.getD "N/A".data
    ++ "]".data) ++ '\n' :: r.base.content ++ "\n---\n".data

/-- The sequence of context blocks for the enumerated results. -/
def formatBlocks : ℕ → List RankedResult → List Str
  | _, [] => []
  | idx, r :: rest => formatBlock idx r :: formatBlocks (idx + 1) rest

/-- The accumulation loop of `get_context_for_query`: keep a running character
total, and `break` at the first block whose addition would push the total past
`max_chars` (the block is never truncated, and later blocks are not
reconsidered). -/
def accumBlocks (max_chars : ℕ) : ℕ → List Str → List Str
  | _, [] => []
  | total, c :: rest =>
    if total + c.length > max_chars then []
    else c :: accumBlocks max_chars (total + c.length) rest

/-- `get_context_for_query(query, max_tokens, n_results)`, as a function of
the raw index rows: run `hybrid_search`, format each result as a labeled
block, accumulate whole blocks under the `max_tokens * 4` character budget,
join the kept blocks with `"\n"`, and return the joined context together with
`results` (the full hybrid-search list, not only the included blocks). -/
def get_context_for_query (max_tokens n_results : ℕ) (hits : List RawHit) :
    Str × List RankedResult :=
  let results := hybrid_search n_results hits
  let context_parts := accumBlocks (max_tokens * 4) 0 (formatBlocks 0 results)
  (joinNL context_parts, results)

/-! ### Response parser (`rag_pipeline_1760607549723.py`, `_parse_llm_response`) -/

/-- The named sections of the `sections` dictionary ("current_section"). -/
inductive SectionTag
  | primary | confidence | evidence | reasoning | alternatives | sources
deriving DecidableEq

/-- The `sections` accumulator of `_parse_llm_response`. -/
structure ParseAcc where
  primary_interpretation : Str
  confidence : Str
  scientific_evidence : Str
  reasoning : Str
  alternative_interpretations : List Str
  sources_cited : Str
deriving DecidableEq

/-- The initial `sections` dictionary; note that `confidence` starts as the
string `"Medium - 50%"` and is only ever appended to, never replaced. -/
def initAcc : ParseAcc :=
  { primary_interpretation := []
    confidence := "Medium - 50%".data
    scientific_evidence := []
    reasoning := []
    alternative_interpretations := []
    sources_cited := [] }

/-- The header-matching cascade over `line_upper = line.strip().upper()`. -/
def headerOf (lu : Str) : Option SectionTag :=
  if containsStr "PRIMARY INTERPRETATION:".data lu then some .primary
  else if containsStr "CONFIDENCE LEVEL:".data lu || containsStr "CONFIDENCE:".data lu then
    some .confidence
  else if containsStr "SCIENTIFIC EVIDENCE:".data lu then some .evidence
  else if containsStr "REASONING:".data lu then some .reasoning
  else if containsStr "ALTERNATIVE INTERPRETATION".data lu then some .alternatives
  else if containsStr "SOURCES CITED:".data lu || containsStr "SOURCES:".data lu then
    some .sources
  else none

/-- Appending one content line to the current section: numbered-list parsing
for the alternatives section (`line.strip()[0:2] in ['1.','2.','3.','4.','5.']`,
appending `line.strip()[3:].strip()`), plain accumulation with a trailing
space for the string-valued sections. -/
def appendTo (acc : ParseAcc) (tag : SectionTag) (line : Str) : ParseAcc :=
  match tag with
  | .alternatives =>
    let t := strip line
    if t.take 2 ∈ [['1', '.'], ['2', '.'], ['3', '.'], ['4', '.'], ['5', '.']] then
      { acc with alternative_interpretations :=
          acc.alternative_interpretations ++ [strip (t.drop 3)] }
    else acc
  | .primary =>
    { acc with primary_interpretation := acc.primary_interpretation ++ strip line ++ [' '] }
  | .confidence => { acc with confidence := acc.confidence ++ strip line ++ [' '] }
  | .evidence =>
    { acc with scientific_evidence := acc.scientific_evidence ++ strip line ++ [' '] }
  | .reasoning => { acc with reasoning := acc.reasoning ++ strip line ++ [' '] }
  | .sources => { acc with sources_cited := acc.sources_cited ++ strip line ++ [' '] }

/-- The body of the per-line loop of `_parse_llm_response`: a header line
switches the current section (and contributes nothing else); otherwise a
nonempty line is appended to the current section, if any. -/
def procLine (st : Option SectionTag × ParseAcc) (line : Str) :
    Option SectionTag × ParseAcc :=
  match headerOf (upperStr (strip line)) with
  | some tag => (some tag, st.2)
  | none =>
    match st.1 with
    | none => st
    | some tag => if strip line = [] then st else (st.1, appendTo st.2 tag line)

/-- The confidence-score extraction at the end of `_parse_llm_response`: if
the accumulated confidence text contains a `'%'` character, take the leftmost
`(\d+)%` match divided by 100 (keeping the 0.5 default if the regex finds
nothing); otherwise fall back to the "High"/"Low" keywords. -/
def confidenceScoreOf (conf : Str) : ℚ :=
  if containsStr ['%'] conf then
    match firstPercent conf with
    | some n => (n : ℚ) / 100
    | none => 0.5
  else if containsStr "High".data conf then 0.85
  else if containsStr "Low".data conf then 0.35
  else 0.5

/-- The parsed-response record (the `sections` dictionary after cleanup plus
the derived `confidence_score`). -/
structure ParsedResponse where
  primary_interpretation : Str
  confidence : Str
  scientific_evidence : Str
  reasoning : Str
  alternative_interpretations : List Str
  sources_cited : Str
  confidence_score : ℚ

/-- `_parse_llm_response(response_text)`: split on newlines, run the per-line
section state machine, strip every string-valued section, and extract the
numeric confidence score. -/
def parse_llm_response (response_text : Str) : ParsedResponse :=
  let acc := ((splitOnChar '\n' response_text).foldl procLine (none, initAcc)).2
  let conf := strip acc.confidence
  { primary_interpretation := strip acc.primary_interpretation
    confidence := conf
    scientific_evidence := strip acc.scientific_evidence
    reasoning := strip acc.reasoning
    alternative_interpretations := acc.alternative_interpretations
    sources_cited := strip acc.sources_cited
    confidence_score := confidenceScoreOf conf }

/-! ### Agentic system (`agentic_system_1760607549717.py`) -/

/-- The `DreamAnalysisState` TypedDict threaded through the six agents. -/
structure DreamAnalysisState where
  dream_text : Str
  user_context : List (Str × Str)
  dream_symbols : List Str
  research_context : Str
  retrieved_sources : List RankedResult
  symbol_analysis : Str
  psychological_analysis : Str
  cultural_analysis : Str
  final_interpretation : Str
  confidence_score : ℚ
  reasoning : Str
  alternative_interpretations : List Str
  current_step : Str
  messages : List Str

/-- Agent 1, `extract_symbols_agent`, as a function of the LLM's response
text: split the response on commas and strip each piece (so an empty response
yields the one-element list `[""]`, never `[]`). -/
def extract_symbols_agent (st : DreamAnalysisState) (symbols_text : Str) :
    DreamAnalysisState :=
  let symbols := (splitOnChar ',' symbols_text).map strip
  { st with
      dream_symbols := symbols
      current_step := "symbol_extraction".data
      messages := st.messages ++
        ["Extracted ".data ++ (Nat.repr symbols.length).data ++ " symbols".data] }

/-- Agent 2, `retrieve_research_agent`, as a function of the raw rows the
index returns for the built query: call `get_context_for_query` with the fixed
budget (`max_tokens=4000`) and fixed `n_results=7` and record both outputs. -/
def retrieve_research_agent (st : DreamAnalysisState) (hits : List RawHit) :
    DreamAnalysisState :=
  let res := get_context_for_query 4000 7 hits
  { st with
      research_context := res.1
      retrieved_sources := res.2
      current_step := "research_retrieval".data
      messages := st.messages ++
        ["Retrieved ".data ++ (Nat.repr res.2.length).data ++ " research sources".data] }

/-- Agent 3, `analyze_symbols_agent`: store the LLM response verbatim. -/
def analyze_symbols_agent (st : DreamAnalysisState) (response : Str) :
    DreamAnalysisState :=
  { st with
      symbol_analysis := response
      current_step := "symbol_analysis".data
      messages := st.messages ++ ["Completed symbol analysis".data] }

/-- Agent 4, `psychological_analysis_agent`: store the LLM response verbatim. -/
def psychological_analysis_agent (st : DreamAnalysisState) (response : Str) :
    DreamAnalysisState :=
  { st with
      psychological_analysis := response
      current_step := "psychological_analysis".data
      messages := st.messages ++ ["Completed psychological analysis".data] }

/-- Agent 5, `cultural_analysis_agent`: store the LLM response verbatim. -/
def cultural_analysis_agent (st : DreamAnalysisState) (response : Str) :
    DreamAnalysisState :=
  { st with
      cultural_analysis := response
      current_step := "cultural_analysis".data
      messages := st.messages ++ ["Completed cultural analysis".data] }

/-- The confidence heuristic of `synthesis_agent`: 0.85 when both "High" and
"%" occur in the synthesis text, else 0.4 when both "Low" and "%" occur, else
the 0.7 default — the percentage digits are never parsed here. -/
def synthConfidence (synthesis : Str) : ℚ :=
  if containsStr "High".data synthesis && containsStr ['%'] synthesis then 0.85
  else if containsStr "Low".data synthesis && containsStr ['%'] synthesis then 0.4
  else 0.7

/-- One step of the simplified alternatives scan in `synthesis_agent`: a line
containing "ALTERNATIVE INTERPRETATION" (after `upper()`) switches the flag
on; afterwards every nonempty line whose first stripped character is a digit
1-9 contributes `line.strip()[3:]`. -/
def synthAltStep (acc : Bool × List Str) (line : Str) : Bool × List Str :=
  if containsStr "ALTERNATIVE INTERPRETATION".data (upperStr line) then (true, acc.2)
  else if acc.1 then
    match strip line with
    | [] => acc
    | c :: rest =>
      if c ∈ ['1', '2', '3', '4', '5', '6', '7', '8', '9'] then
        (acc.1, acc.2 ++ [(c :: rest).drop 3])
      else acc
  else acc

/-- The uncapped alternatives list extracted by `synthesis_agent` (the cap to
three entries is applied when the list is written into the state). -/
def synthAlternatives (synthesis : Str) : List Str :=
  ((splitOnChar '\n' synthesis).foldl synthAltStep (false, [])).2

/-- The reasoning extraction of `synthesis_agent`: the slice between
`"REASONING:"` and `"ALTERNATIVE INTERPRETATIONS:"` with the header removed
and stripped, or a fixed fallback sentence when either marker is missing. -/
def synthReasoning (synthesis : Str) : Str :=
  match findIdx "REASONING:".data synthesis,
      findIdx "ALTERNATIVE INTERPRETATIONS:".data synthesis with
  | some i, some j =>
    strip (removeAll "REASONING:".data ((synthesis.drop i).take (j - i)))
  | _, _ => "Synthesized from multiple analytical perspectives".data

/-- Agent 6, `synthesis_agent`, as a function of the LLM's synthesis response:
the raw response is stored verbatim as `final_interpretation`; confidence,
alternatives (capped to 3 by `alternatives[:3]`) and reasoning are extracted
heuristically. -/
def synthesis_agent (st : DreamAnalysisState) (synthesis : Str) :
    DreamAnalysisState :=
  { st with
      final_interpretation := synthesis
      confidence_score := synthConfidence synthesis
      alternative_interpretations := (synthAlternatives synthesis).take 3
      reasoning := synthReasoning synthesis
      current_step := "complete".data
      messages := st.messages ++ ["Synthesis complete".data] }

/-- The `AgenticResponse` dataclass. -/
structure AgenticResponse where
  interpretation : Str
  confidence_score : ℚ
  symbol_analysis : Str
  psychological_analysis : Str
  cultural_analysis : Str
  reasoning : Str
  alternative_interpretations : List Str
  sources_used : List RankedResult
  agent_trace : List Str

/-- The `initial_state` built at the start of `interpret_dream`. -/
def initial_state (dream_text : Str) (user_context : List (Str × Str)) :
    DreamAnalysisState :=
  { dream_text := dream_text
    user_context := user_context
    dream_symbols := []
    research_context := []
    retrieved_sources := []
    symbol_analysis := []
    psychological_analysis := []
    cultural_analysis := []
    final_interpretation := []
    confidence_score := 0
    reasoning := []
    alternative_interpretations := []
    current_step := "start".data
    messages := [] }

/-- The compiled linear workflow
`symbol_extractor → research_retriever → symbol_analyzer →
psychological_analyzer → cultural_analyzer → synthesis_agent → END`,
run on the initial state; the LLM responses of the five generation stages and
the index rows of the retrieval stage are the external inputs. -/
def run_workflow (dream_text : Str) (user_context : List (Str × Str))
    (hits : List RawHit) (r_sym r_symAn r_psy r_cul r_syn : Str) :
    DreamAnalysisState :=
  synthesis_agent
    (cultural_analysis_agent
      (psychological_analysis_agent
        (analyze_symbols_agent
          (retrieve_research_agent
            (extract_symbols_agent (initial_state dream_text user_context) r_sym)
            hits)
          r_symAn)
        r_psy)
      r_cul)
    r_syn

/-- `DreamInterpreterAgents.interpret_dream`: run the workflow and convert the
final state into an `AgenticResponse`. -/
def interpret_dream (dream_text : Str) (user_context : List (Str × Str))
    (hits : List RawHit) (r_sym r_symAn r_psy r_cul r_syn : Str) :
    AgenticResponse :=
  let final_state := run_workflow dream_text user_context hits r_sym r_symAn r_psy r_cul r_syn
  { interpretation := final_state.final_interpretation
    confidence_score := final_state.confidence_score
    symbol_analysis := final_state.symbol_analysis
    psychological_analysis := final_state.psychological_analysis
    cultural_analysis := final_state.cultural_analysis
    reasoning := final_state.reasoning
    alternative_interpretations := final_state.alternative_interpretations
    sources_used := final_state.retrieved_sources
    agent_trace := final_state.messages }

/-! ### Concrete instances used by counterexamples and witnesses -/

/-- A hit with an explicit credibility weight, for instantiating theorems. -/
def hitW : RawHit :=
  { id := "w1".data
    content := "wcontent".data
    metadata := { source := some "src".data, category := some "cat".data,
                  validation := some "val".data, weight := some (1/5) }
    distance := 1/4 }

/-- Two hits equal in distance and weight whose ids are in descending order. -/
def hb6 : RawHit :=
  { id := "b".data
    content := "x".data
    metadata := { source := some "s".data, category := none,
                  validation := none, weight := some 0 }
    distance := 0 }

/-- Like `hb6` but with the smaller id `"a"`. -/
def ha6 : RawHit :=
  { id := "a".data
    content := "x".data
    metadata := { source := some "s".data, category := none,
                  validation := none, weight := some 0 }
    distance := 0 }

/-- A hit whose formatted context block is exactly 60 characters long. -/
def hitC1 : RawHit :=
  { id := "c1".data
    content := "0123456789".data
    metadata := { source := some "s".data, category := some "c".data,
                  validation := some "v".data, weight := some 0 }
    distance := 0 }

/-- A second hit with a 60-character block, equal in score to `hitC1`. -/
def hitC2 : RawHit :=
  { id := "c2".data
    content := "0123456789".data
    metadata := { source := some "s".data, category := some "c".data,
                  validation := some "v".data, weight := some 0 }
    distance := 0 }

/-- A hit with a 60-character block, used against a 48-character budget. -/
def hitD : RawHit :=
  { id := "d1".data
    content := "0123456789".data
    metadata := { source := some "s".data, category := some "c".data,
                  validation := some "v".data, weight := some 0 }
    distance := 0 }

/-- The formatted context block of `hitD` (60 characters). -/
def blockD : Str := formatBlock 0 (addFinalScore (formatResult hitD))

/-- A hit whose raw distance exceeds 1, so `1 - distance` is negative. -/
def hitE : RawHit :=
  { id := "e1".data
    content := "far".data
    metadata := { source := none, category := none, validation := none, weight := none }
    distance := 3/2 }

/-- A hit with an in-range distance, for the similarity witness. -/
def hitF : RawHit :=
  { id := "f1".data
    content := "near".data
    metadata := { source := none, category := none, validation := none, weight := none }
    distance := 1/4 }

/-- An LLM response with an explicit confidence percentage of 90%. -/
def cex4 : Str := "CONFIDENCE LEVEL:\n90%".data

/-- An LLM response whose alternatives section has four numbered lines. -/
def cex8 : Str := "ALTERNATIVE INTERPRETATIONS:\n1. a\n2. b\n3. c\n4. d".data

/-- A response containing none of the parser's section headers. -/
def cex9 : Str := "random text with no headers".data

/-! ### Lemmas about the stable sort of `hybrid_search` -/

/-- `orderedInsert` never moves an element past one with the same final score:
elements skipped over have strictly larger final score. -/
theorem filter_orderedInsert (k : ℚ) (a : RankedResult) (l : List RankedResult) :
    (List.orderedInsert finalLe a l).filter (fun c => decide (c.final_score = k)) =
      if a.final_score = k then
        a :: l.filter (fun c => decide (c.final_score = k))
      else l.filter (fun c => decide (c.final_score = k)) := by
  induction l with
  | nil => by_cases hk : a.final_score = k <;> simp [List.orderedInsert, hk]
  | cons b l ih =>
    by_cases hab : finalLe a b
    · by_cases hk : a.final_score = k <;> simp [List.orderedInsert, hab, hk]
    · have hba : a.final_score < b.final_score := lt_of_not_le hab
      by_cases hk : a.final_score = k
      · have hbk : ¬ b.final_score = k := by
          rw [← hk]; exact ne_of_gt hba
        simp [List.orderedInsert, hab, hk, hbk, ih]
      · by_cases hbk : b.final_score = k <;>
          simp [List.orderedInsert, hab, hk, hbk, ih]

/-- Stability of the sort used by `hybrid_search`: for every final-score value,
the subsequence of equally-scored elements is exactly their subsequence in the
input order. -/
theorem filter_insertionSort (k : ℚ) (l : List RankedResult) :
    (List.insertionSort finalLe l).filter (fun c => decide (c.final_score = k)) =
      l.filter (fun c => decide (c.final_score = k)) := by
  induction l with
  | nil => rfl
  | cons b l ih =>
    rw [List.insertionSort, filter_orderedInsert]
    by_cases hk : b.final_score = k <;> simp [hk, ih]

/-! ### Claim C1 -/

/-- C1: every candidate returned by `hybrid_search` carries
`final_score = relevance_score * (1 + credibilityWeight)` with the weight read
from the candidate's metadata, and the returned list is sorted by final score
in descending order (`finalLe a b` means `b.final_score ≤ a.final_score`). -/
theorem C1_hybrid_search_final_score_and_order (n : ℕ) (hits : List RawHit)
    (c : RankedResult) (w : ℚ) (hc : c ∈ hybrid_search n hits)
    (hw : c.base.metadata.weight = some w) :
    List.Sorted finalLe (hybrid_search n hits) ∧
      c.final_score = c.base.relevance_score * (1 + w) := by
  constructor
  · exact List.Pairwise.sublist (List.take_sublist _ _)
      (List.sorted_insertionSort finalLe _)
  · have h1 : c ∈ hybrid_ranked hits := List.mem_of_mem_take hc
    have h2 : c ∈ (similarity_search hits).map addFinalScore :=
      (List.mem_insertionSort finalLe).1 h1
    obtain ⟨r, _, rfl⟩ := List.mem_map.1 h2
    simp only [addFinalScore] at hw ⊢
    simp [weightOf, hw]

/-- C1 witness: the theorem instantiated at a singleton index response with an
explicit metadata weight of 1/5. -/
theorem C1_hybrid_search_final_score_and_order_witness :
    List.Sorted finalLe (hybrid_search 1 [hitW]) ∧
      (addFinalScore (formatResult hitW)).final_score =
        (addFinalScore (formatResult hitW)).base.relevance_score * (1 + 1/5) :=
  C1_hybrid_search_final_score_and_order 1 [hitW] (addFinalScore (formatResult hitW))
    (1/5) (List.mem_cons_self _ _) rfl

/-! ### Claim C6 -/

/-- C6 counterexample: two candidates with equal final score and equal raw
similarity whose ids arrive in the order "b", "a" are returned in that same
order — `hybrid_search` has no sourceId-ascending tie-break, contradicting the
claimed ordering, which demands "a" before "b". -/
theorem C6_counterexample_no_sourceId_tiebreak :
    (addFinalScore (formatResult hb6)).final_score =
        (addFinalScore (formatResult ha6)).final_score ∧
      (formatResult hb6).relevance_score = (formatResult ha6).relevance_score ∧
      (hybrid_search 2 [hb6, ha6]).map (fun c => c.base.id) =
        ["b".data, "a".data] := by
  refine ⟨by norm_num [addFinalScore, formatResult, weightOf, hb6, ha6], rfl, ?_⟩
  have h : hybrid_ranked [hb6, ha6] =
      [addFinalScore (formatResult hb6), addFinalScore (formatResult ha6)] := by
    simp [hybrid_ranked, similarity_search, List.insertionSort, List.orderedInsert, finalLe]
    intro hlt
    norm_num [addFinalScore, formatResult, weightOf, hb6, ha6] at hlt
  rw [hybrid_search, h]
  decide

/-- C6 amended: the sort of `hybrid_search` is stable and applies no further
tie-break key — for every final-score value, candidates with that final score
appear in exactly the order in which the similarity search returned them (and
the output is the top-n prefix of this stably sorted list). -/
theorem C6_amended_stable_tie_order (hits : List RawHit) (k : ℚ) (n : ℕ) :
    (hybrid_ranked hits).filter (fun c => decide (c.final_score = k)) =
        ((similarity_search hits).map addFinalScore).filter
          (fun c => decide (c.final_score = k)) ∧
      hybrid_search n hits = (hybrid_ranked hits).take n :=
  ⟨filter_insertionSort k _, rfl⟩

/-! ### Claim C7 -/

/-- C7 counterexample: for a raw index distance of 3/2 the reported
relevance score is 1 - 3/2 < 0 — the source does not clamp to [0,1]. -/
theorem C7_counterexample_no_clamp :
    formatResult hitE ∈ similarity_search [hitE] ∧
      (formatResult hitE).relevance_score < 0 :=
  ⟨List.mem_cons_self _ _, by norm_num [formatResult, hitE]⟩

/-- C7 amended: every result of `similarity_search` reports
`relevance_score = 1 - distance` with no clamping; the score lies in [0,1]
exactly when the underlying distance lies in [0,1]. -/
theorem C7_amended_similarity_formula (hits : List RawHit) (r : SearchResult)
    (hr : r ∈ similarity_search hits) :
    r.relevance_score = 1 - r.distance ∧
      ((0 ≤ r.relevance_score ∧ r.relevance_score ≤ 1) ↔
        (0 ≤ r.distance ∧ r.distance ≤ 1)) := by
  obtain ⟨h, _, rfl⟩ := List.mem_map.1 hr
  refine ⟨rfl, ?_⟩
  simp only [formatResult]
  constructor <;> rintro ⟨h1, h2⟩ <;> constructor <;> linarith

/-- C7 witness: the amended theorem instantiated at a singleton response with
distance 1/4. -/
theorem C7_amended_similarity_formula_witness :
    (formatResult hitF).relevance_score = 1 - (formatResult hitF).distance ∧
      ((0 ≤ (formatResult hitF).relevance_score ∧
          (formatResult hitF).relevance_score ≤ 1) ↔
        (0 ≤ (formatResult hitF).distance ∧ (formatResult hitF).distance ≤ 1)) :=
  C7_amended_similarity_formula [hitF] (formatResult hitF) (List.mem_cons_self _ _)

/-! ### Lemmas about the context-assembly loop -/

theorem sumLens_nil : sumLens [] = 0 := rfl

theorem sumLens_cons (s : Str) (l : List Str) :
    sumLens (s :: l) = s.length + sumLens l := by
  simp [sumLens]

/-- The accumulation loop keeps a prefix of the block list (no block is
truncated or skipped) and stops exactly at the first block whose addition
would push the running total past the budget. -/
theorem accumBlocks_take (max : ℕ) (blocks : List Str) :
    ∀ total, ∃ m, accumBlocks max total blocks = blocks.take m ∧
      ∀ b, ((blocks.drop m).head? = some b) →
        total + sumLens (blocks.take m) + b.length > max := by
  induction blocks with
  | nil => exact fun total => ⟨0, rfl, by simp⟩
  | cons c rest ih =>
    intro total
    by_cases hbig : total + c.length > max
    · refine ⟨0, by simp [accumBlocks, hbig], ?_⟩
      intro b hb
      simp only [List.drop_zero, List.head?_cons, Option.some.injEq] at hb
      subst hb
      simpa [sumLens] using hbig
    · obtain ⟨m, heq, hcond⟩ := ih (total + c.length)
      refine ⟨m + 1, ?_, ?_⟩
      · simp [accumBlocks, hbig, heq]
      · intro b hb
        simp only [List.drop_succ_cons] at hb
        have := hcond b hb
        simp only [List.take_succ_cons, sumLens_cons]
        omega

/-- The running total plus the lengths of the accumulated blocks never exceeds
the budget. -/
theorem accumBlocks_sum (max : ℕ) (blocks : List Str) :
    ∀ total, total ≤ max → total + sumLens (accumBlocks max total blocks) ≤ max := by
  induction blocks with
  | nil => intro total h; simpa [accumBlocks, sumLens]
  | cons c rest ih =>
    intro total h
    by_cases hbig : total + c.length > max
    · simpa [accumBlocks, hbig, sumLens] using h
    · have h2 : total + c.length ≤ max := le_of_not_lt hbig
      have := ih (total + c.length) h2
      simp only [accumBlocks, hbig, if_false, sumLens_cons]
      omega

/-- Length of a `"\n"`-join: the block lengths plus one separator character
between each adjacent pair. -/
theorem joinNL_length (parts : List Str) (h : parts ≠ []) :
    (joinNL parts).length + 1 = sumLens parts + parts.length := by
  induction parts with
  | nil => simp at h
  | cons s rest ih =>
    cases rest with
    | nil => simp [joinNL, sumLens]
    | cons t rest2 =>
      have hrec := ih (by simp)
      simp only [joinNL, List.length_append, List.length_cons, sumLens_cons] at hrec ⊢
      omega

/-! ### Claim C2 -/

/-- C2 counterexample: with `max_tokens = 30` (character budget 120) and two
60-character blocks, both blocks are accumulated (total 120 ≤ 120) but the
`"\n"` inserted by `join` makes the returned context 121 characters long —
longer than the 120-character budget the claim asserts is never exceeded. -/
theorem C2_counterexample_budget_overflow :
    ((get_context_for_query 30 5 [hitC1, hitC2]).1).length = 121 ∧ 30 * 4 < 121 := by
  have h : hybrid_ranked [hitC1, hitC2] =
      [addFinalScore (formatResult hitC1), addFinalScore (formatResult hitC2)] := by
    simp [hybrid_ranked, similarity_search, List.insertionSort, List.orderedInsert, finalLe]
    intro hlt
    norm_num [addFinalScore, formatResult, weightOf, hitC1, hitC2] at hlt
  constructor
  · rw [get_context_for_query, hybrid_search, h]
    decide
  · decide

/-- C2 amended: `get_context_for_query` accumulates only whole formatted
blocks, in order, stopping at the first block whose addition would push the
running character total past `max_tokens * 4`; the sum of the included block
lengths never exceeds the budget, but the returned string joins the blocks
with `"\n"`, so its length is bounded by the budget plus one separator
character per additional block — not by the budget itself. -/
theorem C2_amended_context_budget (max_tokens n_results : ℕ) (hits : List RawHit) :
    ∃ m,
      accumBlocks (max_tokens * 4) 0 (formatBlocks 0 (hybrid_search n_results hits)) =
          (formatBlocks 0 (hybrid_search n_results hits)).take m ∧
        sumLens (accumBlocks (max_tokens * 4) 0
            (formatBlocks 0 (hybrid_search n_results hits))) ≤ max_tokens * 4 ∧
        (get_context_for_query max_tokens n_results hits).1.length ≤
          max_tokens * 4 +
            (accumBlocks (max_tokens * 4) 0
              (formatBlocks 0 (hybrid_search n_results hits))).length - 1 ∧
        ∀ b, (((formatBlocks 0 (hybrid_search n_results hits)).drop m).head? = some b) →
          sumLens (accumBlocks (max_tokens * 4) 0
              (formatBlocks 0 (hybrid_search n_results hits))) + b.length >
            max_tokens * 4 := by
  obtain ⟨m, heq, hstop⟩ :=
    accumBlocks_take (max_tokens * 4) (formatBlocks 0 (hybrid_search n_results hits)) 0
  have hsum : sumLens (accumBlocks (max_tokens * 4) 0
      (formatBlocks 0 (hybrid_search n_results hits))) ≤ max_tokens * 4 := by
    simpa using accumBlocks_sum (max_tokens * 4)
      (formatBlocks 0 (hybrid_search n_results hits)) 0 (Nat.zero_le _)
  refine ⟨m, heq, hsum, ?_, ?_⟩
  · have hctx : (get_context_for_query max_tokens n_results hits).1 =
        joinNL (accumBlocks (max_tokens * 4) 0
          (formatBlocks 0 (hybrid_search n_results hits))) := rfl
    rw [hctx]
    cases hparts : accumBlocks (max_tokens * 4) 0
        (formatBlocks 0 (hybrid_search n_results hits)) with
    | nil => simp [joinNL]
    | cons p ps =>
      have hjl := joinNL_length (p :: ps) (by simp)
      rw [hparts] at hsum
      omega
  · intro b hb
    have := hstop b hb
    rw [heq]
    omega

/-- C2 witness: the amended theorem instantiated at the 120-character budget
and the two 60-character blocks. -/
theorem C2_amended_context_budget_witness :
    ∃ m,
      accumBlocks (30 * 4) 0 (formatBlocks 0 (hybrid_search 5 [hitC1, hitC2])) =
          (formatBlocks 0 (hybrid_search 5 [hitC1, hitC2])).take m ∧
        sumLens (accumBlocks (30 * 4) 0
            (formatBlocks 0 (hybrid_search 5 [hitC1, hitC2]))) ≤ 30 * 4 ∧
        (get_context_for_query 30 5 [hitC1, hitC2]).1.length ≤
          30 * 4 + (accumBlocks (30 * 4) 0
            (formatBlocks 0 (hybrid_search 5 [hitC1, hitC2]))).length - 1 ∧
        ∀ b, (((formatBlocks 0 (hybrid_search 5 [hitC1, hitC2])).drop m).head? = some b) →
          sumLens (accumBlocks (30 * 4) 0
              (formatBlocks 0 (hybrid_search 5 [hitC1, hitC2]))) + b.length > 30 * 4 :=
  C2_amended_context_budget 30 5 [hitC1, hitC2]

/-! ### Claim C3 -/

/-- C3 counterexample: with `max_tokens = 12` (character budget 48) and one
60-character block the returned context string is empty, but the returned
source list is not — it is the full hybrid-search result list, not the list of
results actually included in the context. -/
theorem C3_counterexample_sources_not_filtered :
    (get_context_for_query 12 5 [hitD]).1 = [] ∧
      (get_context_for_query 12 5 [hitD]).2 ≠ [] := by
  constructor
  · decide
  · simp [get_context_for_query, hybrid_search, hybrid_ranked, similarity_search]

/-- C3 amended: the source list returned by `get_context_for_query` is always
the full `hybrid_search` result list, regardless of which blocks fit the
budget; in particular, when the first formatted block already exceeds the
budget the context string is empty while the source list still holds every
retrieved result. -/
theorem C3_amended_sources_full_list (max_tokens n_results : ℕ) (hits : List RawHit)
    (b : Str) (rest : List Str)
    (hb : formatBlocks 0 (hybrid_search n_results hits) = b :: rest)
    (hlen : b.length > max_tokens * 4) :
    (get_context_for_query max_tokens n_results hits).2 = hybrid_search n_results hits ∧
      (get_context_for_query max_tokens n_results hits).1 = [] := by
  refine ⟨rfl, ?_⟩
  have hctx : (get_context_for_query max_tokens n_results hits).1 =
      joinNL (accumBlocks (max_tokens * 4) 0
        (formatBlocks 0 (hybrid_search n_results hits))) := rfl
  rw [hctx, hb]
  simp [accumBlocks, hlen, joinNL]

/-- C3 witness: the amended theorem instantiated at the 48-character budget
and the single 60-character block of `hitD`. -/
theorem C3_amended_sources_full_list_witness :
    (get_context_for_query 12 5 [hitD]).2 = hybrid_search 5 [hitD] ∧
      (get_context_for_query 12 5 [hitD]).1 = [] :=
  C3_amended_sources_full_list 12 5 [hitD] blockD [] rfl (by decide)

/-! ### Lemmas about the response parser -/

/-- Appending a content line can only extend the confidence section. -/
theorem appendTo_confidence (acc : ParseAcc) (tag : SectionTag) (line : Str) :
    ∃ t, (appendTo acc tag line).confidence = acc.confidence ++ t := by
  cases tag
  case confidence => exact ⟨strip line ++ [' '], by simp [appendTo]⟩
  case alternatives =>
    refine ⟨[], ?_⟩
    simp only [appendTo]
    split <;> simp
  all_goals exact ⟨[], by simp [appendTo]⟩

/-- One parser step can only extend the confidence section. -/
theorem procLine_confidence (st : Option SectionTag × ParseAcc) (line : Str) :
    ∃ t, (procLine st line).2.confidence = st.2.confidence ++ t := by
  unfold procLine
  rcases headerOf (upperStr (strip line)) with _ | tag
  · rcases h1 : st.1 with _ | tag2
    · exact ⟨[], by simp⟩
    · by_cases h2 : strip line = []
      · exact ⟨[], by simp [h2]⟩
      · obtain ⟨t, ht⟩ := appendTo_confidence st.2 tag2 line
        exact ⟨t, by simp [h2, ht]⟩
  · exact ⟨[], by simp⟩

/-- The whole parse run can only extend the initial confidence text. -/
theorem foldl_confidence (lines : List Str) :
    ∀ st : Option SectionTag × ParseAcc,
      ∃ t, ((lines.foldl procLine st).2).confidence = st.2.confidence ++ t := by
  induction lines with
  | nil => exact fun st => ⟨[], by simp⟩
  | cons l ls ih =>
    intro st
    obtain ⟨t1, ht1⟩ := procLine_confidence st l
    obtain ⟨t2, ht2⟩ := ih (procLine st l)
    exact ⟨t1 ++ t2, by rw [List.foldl_cons, ht2, ht1, List.append_assoc]⟩

/-- Dropping leading characters satisfying `p` leaves a fixed suffix intact. -/
theorem dropWhile_append_of_fixed (p : Char → Bool) (xr : Str)
    (hx : List.dropWhile p xr = xr) :
    ∀ a, ∃ c, List.dropWhile p (a ++ xr) = c ++ xr := by
  intro a
  induction a with
  | nil => exact ⟨[], by simpa using hx⟩
  | cons x a ih =>
    by_cases hpx : p x
    · simpa [List.dropWhile_cons, hpx] using ih
    · exact ⟨x :: a, by simp [List.dropWhile_cons, hpx]⟩

/-- Stripping whitespace from text that starts with `"Medium - 50%"` keeps
that prefix intact (its first character is not whitespace, and stripping from
the right cannot reach past the `'%'`). -/
theorem strip_medium (t : Str) :
    ∃ u, strip ("Medium - 50%".data ++ t) = "Medium - 50%".data ++ u := by
  unfold strip lstrip rstrip
  have h1 : List.dropWhile pyIsSpace ("Medium - 50%".data ++ t) =
      "Medium - 50%".data ++ t := by
    show List.dropWhile pyIsSpace (('M' :: "edium - 50%".data) ++ t) = _
    rw [List.cons_append, List.dropWhile_cons]
    simp [pyIsSpace]
  have hx : List.dropWhile pyIsSpace ("Medium - 50%".data.reverse) =
      "Medium - 50%".data.reverse := by decide
  obtain ⟨c, hc⟩ := dropWhile_append_of_fixed pyIsSpace _ hx t.reverse
  refine ⟨c.reverse, ?_⟩
  rw [h1, List.reverse_append, hc, List.reverse_append, List.reverse_reverse]

/-- Any confidence text starting with `"Medium - 50%"` contains a `'%'` and
its leftmost `(\d+)%` match is `50`, so the extracted score is 0.5 whatever
follows. -/
theorem conf_score_medium (u : Str) :
    confidenceScoreOf ("Medium - 50%".data ++ u) = 0.5 := by
  have h1 : containsStr ['%'] ("Medium - 50%".data ++ u) = true := rfl
  have h2 : firstPercent ("Medium - 50%".data ++ u) = some 50 := rfl
  rw [confidenceScoreOf, if_pos h1, firstPercent] at *
  rw [h2]
  norm_num

/-- A run over lines matching no section header leaves the state unchanged. -/
theorem foldl_no_header (lines : List Str) (acc : ParseAcc)
    (h : ∀ l ∈ lines, headerOf (upperStr (strip l)) = none) :
    lines.foldl procLine (none, acc) = (none, acc) := by
  induction lines with
  | nil => rfl
  | cons l ls ih =>
    have hl := h l (by simp)
    have hstep : procLine (none, acc) l = (none, acc) := by
      simp [procLine, hl]
    rw [List.foldl_cons, hstep]
    exact ih (fun x hx => h x (by simp [hx]))

/-! ### Claim C4 -/

/-- C4 counterexample: the response contains the explicit percentage pattern
`90%`, yet the parsed confidence score is not 0.9 — the `sections` dictionary
initialises the confidence text to `"Medium - 50%"` and only appends to it, so
the leftmost `(\d+)%` match is always the `50%` of the default. -/
theorem C4_counterexample_percentage_ignored :
    containsStr "90%".data cex4 = true ∧
      (parse_llm_response cex4).confidence_score ≠ 90 / 100 := by
  refine ⟨by decide, ?_⟩
  have h : strip ((((splitOnChar '\n' cex4).foldl procLine (none, initAcc)).2).confidence) =
      "Medium - 50%".data ++ "90%".data := by decide
  have hval : (parse_llm_response cex4).confidence_score = 0.5 := by
    show confidenceScoreOf
      (strip ((((splitOnChar '\n' cex4).foldl procLine (none, initAcc)).2).confidence)) = 0.5
    rw [h]
    exact conf_score_medium _
  rw [hval]
  norm_num

/-- C4 amended: the RAG parser's confidence score is 0.5 for every input
(the `"Medium - 50%"` default is prepended to whatever the response says, so
the leftmost percentage is always 50%, and the keyword fallback is
unreachable); the agentic synthesis stage never parses the percentage digits —
its confidence is always one of the three fixed values 0.85
("High" and "%" present), 0.4 ("Low" and "%" present) or the 0.7 default. -/
theorem C4_amended_confidence_extraction (s : Str) :
    (parse_llm_response s).confidence_score = 0.5 ∧
      (synthConfidence s = 0.85 ∨ synthConfidence s = 0.4 ∨ synthConfidence s = 0.7) := by
  constructor
  · show confidenceScoreOf
      (strip ((((splitOnChar '\n' s).foldl procLine (none, initAcc)).2).confidence)) = 0.5
    obtain ⟨t, ht⟩ := foldl_confidence (splitOnChar '\n' s) (none, initAcc)
    rw [ht]
    obtain ⟨u, hu⟩ := strip_medium t
    show confidenceScoreOf (strip ("Medium - 50%".data ++ t)) = 0.5
    rw [hu]
    exact conf_score_medium u
  · unfold synthConfidence
    split_ifs <;> simp

/-! ### Claim C8 -/

/-- C8 counterexample: a response whose alternatives section has four numbered
lines makes the RAG parser return four alternative interpretations — the RAG
path applies no cap, contradicting the claimed bound of 3 for both
strategies. -/
theorem C8_counterexample_rag_four_alternatives :
    ((parse_llm_response cex8).alternative_interpretations).length = 4 ∧ ¬ (4 ≤ 3) :=
  ⟨by decide, by decide⟩

/-- C8 amended: only the agentic synthesis stage caps the alternatives list at
three entries (`alternatives[:3]`); the RAG parser appends one entry per line
starting with `'1.'`–`'5.'` without any cap and can return more than three. -/
theorem C8_amended_agentic_cap_three (st : DreamAnalysisState) (r : Str) :
    ((synthesis_agent st r).alternative_interpretations).length ≤ 3 := by
  simp only [synthesis_agent]
  exact List.length_take_le 3 (synthAlternatives r)

/-! ### Claim C9 -/

/-- C9: the response parser is total by construction and, on any input none of
whose lines matches a section header, returns every section empty and the
fixed default confidence score 0.5 — no exception path exists and no field is
ever missing. -/
theorem C9_parser_defaults_without_headers (s : Str)
    (h : ∀ l ∈ splitOnChar '\n' s, headerOf (upperStr (strip l)) = none) :
    (parse_llm_response s).confidence_score = 0.5 ∧
      (parse_llm_response s).alternative_interpretations = [] ∧
      (parse_llm_response s).primary_interpretation = [] ∧
      (parse_llm_response s).scientific_evidence = [] ∧
      (parse_llm_response s).reasoning = [] ∧
      (parse_llm_response s).sources_cited = [] := by
  have hfold := foldl_no_header (splitOnChar '\n' s) initAcc h
  unfold parse_llm_response
  rw [hfold]
  refine ⟨?_, rfl, rfl, rfl, rfl, rfl⟩
  have : strip (initAcc.confidence) = "Medium - 50%".data ++ [] := by decide
  show confidenceScoreOf (strip initAcc.confidence) = 0.5
  rw [this]
  exact conf_score_medium []

/-- C9 witness: the theorem instantiated at the spec's example input
`"random text with no headers"`. -/
theorem C9_parser_defaults_without_headers_witness :
    (parse_llm_response cex9).confidence_score = 0.5 ∧
      (parse_llm_response cex9).alternative_interpretations = [] ∧
      (parse_llm_response cex9).primary_interpretation = [] ∧
      (parse_llm_response cex9).scientific_evidence = [] ∧
      (parse_llm_response cex9).reasoning = [] ∧
      (parse_llm_response cex9).sources_cited = [] :=
  C9_parser_defaults_without_headers cex9 (by decide)

/-! ### Claim C5 -/

/-- C5 counterexample: when the symbol-extraction LLM call returns the empty
string, the symbol list written into the state is `[""]` — a one-element list
holding the empty string (Python's `"".split(',')`), not the empty list the
claim asserts. -/
theorem C5_counterexample_empty_response_symbols :
    (extract_symbols_agent (initial_state [] []) []).dream_symbols = [[]] ∧
      ([[]] : List Str) ≠ [] :=
  ⟨rfl, by decide⟩

/-- C5 amended: an empty symbol-extraction response yields the one-element
symbol list `[""]` (never the empty list, since a comma-split is always
nonempty); the pipeline still proceeds through every later stage without
error, reaching the `"complete"` step with that symbol list unchanged. -/
theorem C5_amended_empty_response_singleton (st : DreamAnalysisState) (d : Str)
    (uc : List (Str × Str)) (hits : List RawHit) (r_symAn r_psy r_cul r_syn : Str) :
    (extract_symbols_agent st []).dream_symbols = [[]] ∧
      (run_workflow d uc hits [] r_symAn r_psy r_cul r_syn).current_step =
        "complete".data ∧
      (run_workflow d uc hits [] r_symAn r_psy r_cul r_syn).dream_symbols = [[]] :=
  ⟨rfl, rfl, rfl⟩

/-! ### Claim C10 -/

/-- C10: the interpretation text of the agentic response is the entire raw
synthesis-stage LLM response, verbatim — `synthesis_agent` stores the raw
response as `final_interpretation` and `interpret_dream` returns that field
unmodified, headers and all. -/
theorem C10_interpretation_is_raw_synthesis (d : Str) (uc : List (Str × Str))
    (hits : List RawHit) (r_sym r_symAn r_psy r_cul r_syn : Str) :
    (interpret_dream d uc hits r_sym r_symAn r_psy r_cul r_syn).interpretation =
      r_syn :=
  rfl

end DreamTrue
